import Mathlib

/-!
Shallow embedding of the Trello due-date monitor (src/trello.py and
src/app.py).  The three SQLite tables of cards_due.db are modelled as
lists of rows; each Python function that reads or writes the database
becomes a pure Lean function threading the `DB` state explicitly.
Timestamp strings are modelled abstractly by a `TsStr` record bundling
the raw text with what `datetime.fromisoformat` yields on it.
-/

/-- Abstraction of a timestamp string together with the outcome of
parsing it with Python's `datetime.fromisoformat` (after the code's
`replace('Z', '+00:00')` preprocessing): `raw` is the string itself
(compared by the code with `==`/`!=`/`>` on strings); `wall` is the
naive wall-clock value of the parsed datetime, in minutes; `offset` is
`utcoffset` in minutes when the parsed datetime is timezone-aware
(`some 0` for a `Z` or `+00:00` marker) and `none` when it is naive;
`ok` records whether parsing succeeds at all. -/
structure TsStr where
  raw : String
  wall : Int
  offset : Option Int
  ok : Bool
deriving DecidableEq, Repr

/-- The instant a timestamp string denotes, in UTC minutes (a naive
string is read as UTC, per the source's own convention of comparing
SQLite naive timestamps with UTC Trello timestamps). -/
def TsStr.instant (t : TsStr) : Option Int :=
  if t.ok then some (t.wall - t.offset.getD 0) else none

/-- Result of the parse-and-strip sequence used throughout trello.py
lines 383-405 and app.py lines 362-381: `fromisoformat` (with the `Z`
replacement) followed by `replace(tzinfo=None)`, which drops the offset
WITHOUT converting, leaving the naive wall-clock fields. `none` models
a raised exception on an unparsable string. -/
def fromisoNaive (t : TsStr) : Option Int :=
  if t.ok then some t.wall else none

/-- Python's `<` on strings: lexicographic comparison of code points,
which is Lean's lexicographic order on the character list. -/
def strLt (a b : String) : Bool := decide (a.data < b.data)

/-- Row of the card_due table (trello.py lines 66-73). -/
structure DueRow where
  card_id : String
  name : String
  due_date : Option TsStr
  due_date_updated_at : Option TsStr
deriving DecidableEq, Repr

/-- Row of the reminders table (trello.py lines 76-86); `id` is the
AUTOINCREMENT primary key, `created_at` the CURRENT_TIMESTAMP default,
`is_read` the 0/1 flag. -/
structure Reminder where
  id : Nat
  card_id : String
  card_name : String
  old_due : Option TsStr
  new_due : Option TsStr
  created_at : TsStr
  is_read : Bool
deriving DecidableEq, Repr

/-- Row of the card_comments table (trello.py lines 89-97). -/
structure CommentRow where
  comment_id : String
  card_id : String
  comment_text : String
  created_at : TsStr
  suppressed_notification : Bool
deriving DecidableEq, Repr

/-- The cards_due.db database state: the three tables plus the next
AUTOINCREMENT value of the reminders table. -/
structure DB where
  card_due : List DueRow
  reminders : List Reminder
  next_reminder_id : Nat
  card_comments : List CommentRow
deriving DecidableEq, Repr

/-- A comment as fetched from the Trello API in get_card_comments
(trello.py lines 317-320): id, text, and the action date string. -/
structure CommentIn where
  comment_id : String
  text : String
  created_at : TsStr
deriving DecidableEq, Repr

/-- A card as it appears in the snapshot iterated by check_cards
(trello.py lines 545-549). -/
structure CardIn where
  id : String
  name : String
  due : Option TsStr
deriving DecidableEq, Repr

/-- Per-card external world for one reconciliation cycle:
`dueChangeLookup` is the result of get_due_date_change_time_from_trello
(trello.py 131-175; `none` covers both an API failure, which the
function catches and turns into None, and no due-change action found);
`commentsFetch` is the comment list returned by the Trello API in
get_card_comments (`none` models a failed request, whose exception the
function catches, returning None); `storageOk` models whether the
sqlite3 operations for this card succeed (the code has no per-card
exception handler around them, see check_cards / main). -/
structure CardEnv where
  dueChangeLookup : Option TsStr
  commentsFetch : Option (List CommentIn)
  storageOk : Bool
deriving Repr

/-- get_stored_due_date (trello.py lines 120-129): returns the pair
(due_date, due_date_updated_at) of the card's row, or (None, None)
when no row exists. -/
def get_stored_due_date (db : DB) (card_id : String) : Option TsStr × Option TsStr :=
  match db.card_due.find? (fun r => r.card_id == card_id) with
  | some r => (r.due_date, r.due_date_updated_at)
  | none => (none, none)

/-- add_reminder (trello.py lines 214-223): INSERT into reminders with
`is_read` defaulting to 0 and `created_at` defaulting to the current
timestamp, here passed in as `now`. -/
def add_reminder (db : DB) (card_id card_name : String)
    (old_due new_due : Option TsStr) (now : TsStr) : DB :=
  { db with
    reminders := db.reminders ++
      [⟨db.next_reminder_id, card_id, card_name, old_due, new_due, now, false⟩],
    next_reminder_id := db.next_reminder_id + 1 }

/-- The per-comment suppression computation of get_card_comments
(trello.py lines 322-342): false when the card has no parsable
due_date_updated_at, otherwise `comment_dt > due_date_dt` on the
naive-normalized values, with a parse failure on the comment caught
and leaving the flag false. -/
def computeSuppressed (due_dt : Option Int) (created_at : TsStr) : Bool :=
  match due_dt with
  | none => false
  | some d =>
    match fromisoNaive created_at with
    | some c => decide (d < c)
    | none => false

/-- INSERT OR REPLACE into card_comments keyed on comment_id
(trello.py lines 345-349): SQLite deletes any conflicting row and
inserts the new one. -/
def upsertComment (rows : List CommentRow) (row : CommentRow) : List CommentRow :=
  rows.filter (fun r => !(r.comment_id == row.comment_id)) ++ [row]

/-- The running latest-timestamp computation of get_card_comments
(trello.py lines 351-353): `created_at > latest_timestamp` is a raw
Python string comparison. -/
def latestStep (acc : Option TsStr) (c : CommentIn) : Option TsStr :=
  match acc with
  | none => some c.created_at
  | some l => if strLt l.raw c.created_at.raw then some c.created_at else acc

/-- The due-change naive value get_card_comments derives from the
stored row for its suppression flags (trello.py lines 284-302): the
card's due_date_updated_at, parsed to a naive value, with absence or a
parse failure yielding None. -/
def dueDtOf (db : DB) (card_id : String) : Option Int :=
  match (get_stored_due_date db card_id).2 with
  | some u => fromisoNaive u
  | none => none

/-- The CommentRow that get_card_comments writes for one fetched
comment (trello.py lines 317-349). -/
def ingestRow (due_dt : Option Int) (card_id : String) (c : CommentIn) : CommentRow :=
  ⟨c.comment_id, card_id, c.text, c.created_at, computeSuppressed due_dt c.created_at⟩

/-- get_card_comments (trello.py lines 254-361): on a failed request or
an empty comment list, returns None without touching the database;
otherwise re-upserts every fetched comment with a freshly computed
suppressed_notification flag (relative to the card's CURRENT
due_date_updated_at) and returns the raw-string-largest comment
timestamp. -/
def get_card_comments (db : DB) (env : CardEnv) (card_id : String) :
    Option TsStr × DB :=
  match env.commentsFetch with
  | none => (none, db)
  | some comments =>
    if comments.isEmpty then (none, db)
    else
      let due_dt := dueDtOf db card_id
      let rows := comments.foldl (fun acc c =>
        upsertComment acc (ingestRow due_dt card_id c)) db.card_comments
      let latest := comments.foldl latestStep none
      (latest, { db with card_comments := rows })

/-- has_comment_after_due_date_change (trello.py lines 363-418):
false when the card has no stored due_date_updated_at or no comment is
found; otherwise parses both timestamps to naive values (any parse
exception is caught, yielding false) and tests strict greater-than. -/
def has_comment_after_due_date_change (db : DB) (env : CardEnv)
    (card_id : String) : Bool × DB :=
  match (get_stored_due_date db card_id).2 with
  | none => (false, db)
  | some upd =>
    let res := get_card_comments db env card_id
    match res.1 with
    | none => (false, res.2)
    | some latest =>
      match fromisoNaive upd, fromisoNaive latest with
      | some d, some c => (decide (d < c), res.2)
      | _, _ => (false, res.2)

/-- mark_reminder_as_read (app.py lines 305-313) and the identical
inline UPDATE of send_reminder (trello.py line 516): sets is_read = 1
on every row whose id matches; an absent id simply updates no rows. -/
def mark_reminder_as_read (db : DB) (reminder_id : Nat) : DB :=
  { db with
    reminders := db.reminders.map (fun r =>
      if r.id == reminder_id then { r with is_read := true } else r) }

/-- One step of scanning for the row with the greatest created_at
(raw string order). -/
def pickStep (acc : Option Reminder) (r : Reminder) : Option Reminder :=
  match acc with
  | none => some r
  | some b => if strLt b.created_at.raw r.created_at.raw then some r else acc

/-- The SELECT of send_reminder (trello.py lines 506-510): the id of an
unread reminder of the card with the greatest created_at (raw string
order, ORDER BY created_at DESC LIMIT 1). -/
def newestUnreadId (reminders : List Reminder) (card_id : String) : Option Nat :=
  ((reminders.filter (fun r => r.card_id == card_id && r.is_read == false)).foldl
    pickStep none).map (fun r => r.id)

/-- send_reminder (trello.py lines 491-538): when a comment postdates
the due-date change, the reminder row is still inserted but the card's
newest unread reminder is immediately marked read; otherwise the row is
inserted and left unread. -/
def send_reminder (db : DB) (env : CardEnv) (now : TsStr)
    (card_id card_name : String) (old_due new_due : Option TsStr) : DB :=
  let chk := has_comment_after_due_date_change db env card_id
  if chk.1 then
    let db2 := add_reminder chk.2 card_id card_name old_due new_due now
    match newestUnreadId db2.reminders card_id with
    | some rid => mark_reminder_as_read db2 rid
    | none => db2
  else
    add_reminder chk.2 card_id card_name old_due new_due now

/-- The UPDATE-or-INSERT of update_stored_due_date (trello.py lines
191-205): if a row for the card exists it is updated in place,
otherwise a new row is appended. -/
def upsertDue (rows : List DueRow) (card_id name : String)
    (due : Option TsStr) (ts : TsStr) : List DueRow :=
  if rows.any (fun r => r.card_id == card_id) then
    rows.map (fun r =>
      if r.card_id == card_id then ⟨card_id, name, due, some ts⟩ else r)
  else rows ++ [⟨card_id, name, due, some ts⟩]

/-- Python's `old_due_date != new_due_date` on optional strings
(trello.py line 211): None equals only None, strings compare raw. -/
def optRawNe : Option TsStr → Option TsStr → Bool
  | none, none => false
  | some a, some b => !(a.raw == b.raw)
  | _, _ => true

/-- update_stored_due_date (trello.py lines 177-212): resolves the
change instant from the Trello action history, falling back to the
current wall-clock time; upserts the card_due row; then sends a
reminder only when the old due date is not None and differs from the
new one.  The sqlite3 operations have no per-card handler, so a
storage fault (¬storageOk) escapes as an exception, modelled by
`Except.error`. -/
def update_stored_due_date (db : DB) (env : CardEnv) (now : TsStr)
    (card_id card_name : String) (new_due old_due : Option TsStr) :
    Except Unit DB :=
  if env.storageOk = false then .error ()
  else
    let timestamp := env.dueChangeLookup.getD now
    let db1 := { db with
      card_due := upsertDue db.card_due card_id card_name new_due timestamp }
    if old_due.isSome && optRawNe old_due new_due then
      .ok (send_reminder db1 env now card_id card_name old_due new_due)
    else
      .ok db1

/-- The name-only refresh of check_cards' final branch (trello.py lines
572-576): UPDATE card_due SET name = ? WHERE card_id = ?. -/
def nameRefresh (db : DB) (card_id name : String) : DB :=
  { db with
    card_due := db.card_due.map (fun r =>
      if r.card_id == card_id then { r with name := name } else r) }

/-- Transition verdict of the if-chain in check_cards (trello.py lines
555-570), named after the spec's classifier vocabulary. -/
inductive Verdict where
  | noDueDate
  | removed
  | firstSet
  | changed
  | unchanged
deriving DecidableEq, Repr

/-- The decision structure of check_cards' if-chain (trello.py lines
555-570): the equality tests `current_due is None`, `stored_due is
None` and `current_due != stored_due` are on the raw strings. -/
def classify (current stored : Option TsStr) : Verdict :=
  match current, stored with
  | none, none => .noDueDate
  | none, some _ => .removed
  | some _, none => .firstSet
  | some cd, some sd => if cd.raw == sd.raw then .unchanged else .changed

/-- The body of check_cards' per-card loop (trello.py lines 545-576):
reads the stored due date, dispatches on the if-chain, and either
updates the stored due date (possibly reminding) or refreshes only the
name; the both-None branch is `pass`.  A storage fault in the name
refresh likewise escapes. -/
def processCard (db : DB) (now : TsStr) (c : CardIn) (env : CardEnv) :
    Except Unit DB :=
  match c.due, (get_stored_due_date db c.id).1 with
  | none, none => .ok db
  | none, some sd => update_stored_due_date db env now c.id c.name none (some sd)
  | some cd, none => update_stored_due_date db env now c.id c.name (some cd) none
  | some cd, some sd =>
    if cd.raw == sd.raw then
      if env.storageOk then .ok (nameRefresh db c.id c.name) else .error ()
    else
      update_stored_due_date db env now c.id c.name (some cd) (some sd)

/-- The card loop of check_cards (trello.py lines 545-576).  The loop
has no per-card exception handler, so the first escaping exception
aborts the remaining cards; main (trello.py lines 599-605) catches it
and retries the whole cycle next interval.  Returns the database as it
stands together with a flag telling whether the loop ran to
completion. -/
def check_cards (db : DB) (now : TsStr) :
    List (CardIn × CardEnv) → DB × Bool
  | [] => (db, true)
  | (c, env) :: rest =>
    match processCard db now c env with
    | .ok db1 => check_cards db1 now rest
    | .error _ => (db, false)

/-- api_mark_read (app.py lines 466-470): runs the UPDATE and
unconditionally reports success, whatever the id. -/
def api_mark_read (db : DB) (reminder_id : Nat) : DB × Bool :=
  (mark_reminder_as_read db reminder_id, true)

/-- The spec's suppression decision rule (spec §4.4), stated on the
resolved change instant and the most recent comment timestamp: strictly
greater after normalization suppresses; no comment, a tie, or a parse
failure delivers. -/
def specSuppressed (changed_at : TsStr) (latest : Option TsStr) : Bool :=
  match latest with
  | none => false
  | some l =>
    match fromisoNaive changed_at, fromisoNaive l with
    | some d, some c => decide (d < c)
    | _, _ => false

/-- The raw-string-largest created_at among the fetched comments, the
value get_card_comments hands to the suppression comparison. -/
def latestFetched (env : CardEnv) : Option TsStr :=
  match env.commentsFetch with
  | none => none
  | some cs => cs.foldl latestStep none

/-! ### Frame lemmas: which tables each operation leaves untouched -/

theorem gcc_card_due (db : DB) (env : CardEnv) (cid : String) :
    ((get_card_comments db env cid).2).card_due = db.card_due := by
  unfold get_card_comments
  cases env.commentsFetch with
  | none => rfl
  | some cs => by_cases h : cs.isEmpty <;> simp [h]

theorem gcc_reminders (db : DB) (env : CardEnv) (cid : String) :
    ((get_card_comments db env cid).2).reminders = db.reminders := by
  unfold get_card_comments
  cases env.commentsFetch with
  | none => rfl
  | some cs => by_cases h : cs.isEmpty <;> simp [h]

theorem gcc_next_id (db : DB) (env : CardEnv) (cid : String) :
    ((get_card_comments db env cid).2).next_reminder_id = db.next_reminder_id := by
  unfold get_card_comments
  cases env.commentsFetch with
  | none => rfl
  | some cs => by_cases h : cs.isEmpty <;> simp [h]

theorem gcc_fst (db : DB) (env : CardEnv) (cid : String) :
    (get_card_comments db env cid).1 = latestFetched env := by
  unfold get_card_comments latestFetched
  cases env.commentsFetch with
  | none => rfl
  | some cs =>
    by_cases h : cs.isEmpty
    · simp [h, List.isEmpty_iff.mp h]
    · simp [h]

theorem find_map_upsertDue (rows : List DueRow) (cid n : String)
    (due : Option TsStr) (ts : TsStr)
    (h : rows.any (fun r => r.card_id == cid) = true) :
    (rows.map (fun r =>
        if r.card_id == cid then (⟨cid, n, due, some ts⟩ : DueRow) else r)).find?
      (fun r => r.card_id == cid) = some ⟨cid, n, due, some ts⟩ := by
  induction rows with
  | nil => simp at h
  | cons x xs ih =>
    by_cases hx : x.card_id == cid
    · simp [hx, List.find?]
    · have h2 : xs.any (fun r => r.card_id == cid) = true := by
        simpa [List.any_cons, hx] using h
      have hx2 : (x.card_id == cid) = false := by simpa using hx
      rw [List.map_cons, if_neg hx, List.find?_cons, hx2]
      exact ih h2

theorem find_upsertDue (rows : List DueRow) (cid n : String)
    (due : Option TsStr) (ts : TsStr) :
    (upsertDue rows cid n due ts).find? (fun r => r.card_id == cid)
      = some ⟨cid, n, due, some ts⟩ := by
  unfold upsertDue
  by_cases h : rows.any (fun r => r.card_id == cid)
  · rw [if_pos h]
    exact find_map_upsertDue rows cid n due ts h
  · rw [if_neg h, List.find?_append]
    have hn : rows.find? (fun r => r.card_id == cid) = none := by
      rw [List.find?_eq_none]
      intro x hx hp
      exact h (List.any_eq_true.mpr ⟨x, hx, hp⟩)
    simp [hn, List.find?]

theorem get_stored_after_upsert (db : DB) (cid n : String)
    (due : Option TsStr) (ts : TsStr) :
    get_stored_due_date
        { db with card_due := upsertDue db.card_due cid n due ts } cid
      = (due, some ts) := by
  unfold get_stored_due_date
  simp only []
  rw [find_upsertDue]

theorem hcadc_fst (db : DB) (env : CardEnv) (cid : String) (ts : TsStr)
    (h : (get_stored_due_date db cid).2 = some ts) :
    (has_comment_after_due_date_change db env cid).1
      = specSuppressed ts (latestFetched env) := by
  unfold has_comment_after_due_date_change specSuppressed
  rw [h]
  dsimp only
  rw [gcc_fst]
  cases latestFetched env with
  | none => rfl
  | some l =>
    dsimp only
    cases fromisoNaive ts <;> cases fromisoNaive l <;> rfl

theorem hcadc_card_due (db : DB) (env : CardEnv) (cid : String) :
    ((has_comment_after_due_date_change db env cid).2).card_due = db.card_due := by
  unfold has_comment_after_due_date_change
  cases (get_stored_due_date db cid).2 with
  | none => rfl
  | some upd =>
    dsimp only
    cases h : (get_card_comments db env cid).1 with
    | none => simpa using gcc_card_due db env cid
    | some l =>
      dsimp only
      cases fromisoNaive upd <;> cases fromisoNaive l <;>
        simpa using gcc_card_due db env cid

theorem hcadc_reminders (db : DB) (env : CardEnv) (cid : String) :
    ((has_comment_after_due_date_change db env cid).2).reminders = db.reminders := by
  unfold has_comment_after_due_date_change
  cases (get_stored_due_date db cid).2 with
  | none => rfl
  | some upd =>
    dsimp only
    cases h : (get_card_comments db env cid).1 with
    | none => simpa using gcc_reminders db env cid
    | some l =>
      dsimp only
      cases fromisoNaive upd <;> cases fromisoNaive l <;>
        simpa using gcc_reminders db env cid

theorem hcadc_next_id (db : DB) (env : CardEnv) (cid : String) :
    ((has_comment_after_due_date_change db env cid).2).next_reminder_id
      = db.next_reminder_id := by
  unfold has_comment_after_due_date_change
  cases (get_stored_due_date db cid).2 with
  | none => rfl
  | some upd =>
    dsimp only
    cases h : (get_card_comments db env cid).1 with
    | none => simpa using gcc_next_id db env cid
    | some l =>
      dsimp only
      cases fromisoNaive upd <;> cases fromisoNaive l <;>
        simpa using gcc_next_id db env cid

theorem DB.ext4 (a b : DB) (h1 : a.card_due = b.card_due)
    (h2 : a.reminders = b.reminders)
    (h3 : a.next_reminder_id = b.next_reminder_id)
    (h4 : a.card_comments = b.card_comments) : a = b := by
  cases a; cases b
  cases h1; cases h2; cases h3; cases h4
  rfl

theorem pick_mem (l : List Reminder) :
    ∀ (acc : Option Reminder) (b : Reminder),
      l.foldl pickStep acc = some b → b ∈ l ∨ acc = some b := by
  induction l with
  | nil => intro acc b h; exact Or.inr h
  | cons x xs ih =>
    intro acc b h
    rw [List.foldl_cons] at h
    rcases ih (pickStep acc x) b h with hm | he
    · exact Or.inl (List.mem_cons_of_mem _ hm)
    · cases acc with
      | none =>
        have hx : x = b := by simpa [pickStep] using he
        exact Or.inl (hx ▸ List.mem_cons_self x xs)
      | some a =>
        have he2 : (if strLt a.created_at.raw x.created_at.raw = true
            then some x else some a) = some b := he
        by_cases hlt : strLt a.created_at.raw x.created_at.raw = true
        · rw [if_pos hlt] at he2
          have hx : x = b := by simpa using he2
          exact Or.inl (hx ▸ List.mem_cons_self x xs)
        · rw [if_neg hlt] at he2
          exact Or.inr he2

theorem newestUnreadId_fresh (l : List Reminder) (cid : String) (r0 : Reminder)
    (h0 : r0.card_id = cid) (h0r : r0.is_read = false)
    (hf : ∀ r ∈ l, r.card_id = cid → r.is_read = false →
      strLt r.created_at.raw r0.created_at.raw = true) :
    newestUnreadId (l ++ [r0]) cid = some r0.id := by
  unfold newestUnreadId
  rw [List.filter_append]
  have hr0 : List.filter (fun r => r.card_id == cid && r.is_read == false) [r0]
      = [r0] := by simp [h0, h0r]
  rw [hr0, List.foldl_append, List.foldl_cons, List.foldl_nil]
  cases hacc : (List.filter (fun r => r.card_id == cid && r.is_read == false) l).foldl
      pickStep none with
  | none => simp [pickStep]
  | some b =>
    have hb : b ∈ List.filter (fun r => r.card_id == cid && r.is_read == false) l := by
      rcases pick_mem _ _ _ hacc with hm | he
      · exact hm
      · exact absurd he (by simp)
    have hmem := List.mem_filter.mp hb
    have hcid : b.card_id = cid := by
      have := hmem.2
      simp only [Bool.and_eq_true, beq_iff_eq] at this
      exact this.1
    have hread : b.is_read = false := by
      have := hmem.2
      simp only [Bool.and_eq_true, beq_iff_eq] at this
      exact this.2
    have hlt := hf b hmem.1 hcid hread
    simp [pickStep, hlt]

theorem send_reminder_spec (db : DB) (env : CardEnv) (now : TsStr)
    (cid cn : String) (od nd : Option TsStr) (ts : TsStr)
    (hts : (get_stored_due_date db cid).2 = some ts)
    (hfresh : ∀ r ∈ db.reminders, r.card_id = cid → r.is_read = false →
      strLt r.created_at.raw now.raw = true)
    (hids : ∀ r ∈ db.reminders, r.id < db.next_reminder_id) :
    send_reminder db env now cid cn od nd =
      { card_due := db.card_due,
        reminders := db.reminders ++
          [⟨db.next_reminder_id, cid, cn, od, nd, now,
            specSuppressed ts (latestFetched env)⟩],
        next_reminder_id := db.next_reminder_id + 1,
        card_comments :=
          ((has_comment_after_due_date_change db env cid).2).card_comments } := by
  have hcd := hcadc_card_due db env cid
  have hrm := hcadc_reminders db env cid
  have hni := hcadc_next_id db env cid
  unfold send_reminder
  dsimp only
  rw [hcadc_fst db env cid ts hts]
  cases hs : specSuppressed ts (latestFetched env) with
  | false =>
    rw [if_neg (by simp)]
    unfold add_reminder
    exact DB.ext4 _ _ hcd (by rw [hrm, hni]) (by rw [hni]) rfl
  | true =>
    rw [if_pos rfl]
    have hn : newestUnreadId
        (add_reminder (has_comment_after_due_date_change db env cid).2
          cid cn od nd now).reminders cid = some db.next_reminder_id := by
      unfold add_reminder
      dsimp only
      rw [hrm, hni]
      exact newestUnreadId_fresh db.reminders cid
        ⟨db.next_reminder_id, cid, cn, od, nd, now, false⟩ rfl rfl hfresh
    rw [hn]
    unfold mark_reminder_as_read add_reminder
    dsimp only
    rw [hrm, hni, List.map_append]
    have hmapold : db.reminders.map (fun r =>
        if r.id == db.next_reminder_id then { r with is_read := true } else r)
        = db.reminders := by
      have hc : ∀ r ∈ db.reminders, (fun r =>
          if r.id == db.next_reminder_id then { r with is_read := true } else r) r
          = id r := by
        intro r hr
        have : (r.id == db.next_reminder_id) = false := by
          simpa using Nat.ne_of_lt (hids r hr)
        simp [this]
      rw [List.map_congr_left hc, List.map_id]
    rw [hmapold]
    exact DB.ext4 _ _ hcd (by simp) rfl rfl

theorem update_spec (db : DB) (env : CardEnv) (now : TsStr) (cid cn : String)
    (nd od : Option TsStr)
    (hok : env.storageOk = true)
    (hcond : (od.isSome && optRawNe od nd) = true)
    (hfresh : ∀ r ∈ db.reminders, r.card_id = cid → r.is_read = false →
      strLt r.created_at.raw now.raw = true)
    (hids : ∀ r ∈ db.reminders, r.id < db.next_reminder_id) :
    update_stored_due_date db env now cid cn nd od =
      .ok { card_due := upsertDue db.card_due cid cn nd (env.dueChangeLookup.getD now),
            reminders := db.reminders ++
              [⟨db.next_reminder_id, cid, cn, od, nd, now,
                specSuppressed (env.dueChangeLookup.getD now) (latestFetched env)⟩],
            next_reminder_id := db.next_reminder_id + 1,
            card_comments :=
              ((has_comment_after_due_date_change
                { db with card_due :=
                    upsertDue db.card_due cid cn nd (env.dueChangeLookup.getD now) }
                env cid).2).card_comments } := by
  unfold update_stored_due_date
  rw [hok, if_neg (by decide : ¬(true = false)), if_pos hcond]
  rw [send_reminder_spec _ env now cid cn od nd (env.dueChangeLookup.getD now)
    (by rw [get_stored_after_upsert])
    (by exact hfresh) (by exact hids)]

theorem update_spec_noreminder (db : DB) (env : CardEnv) (now : TsStr)
    (cid cn : String) (nd od : Option TsStr)
    (hok : env.storageOk = true)
    (hcond : (od.isSome && optRawNe od nd) = false) :
    update_stored_due_date db env now cid cn nd od =
      .ok { db with card_due :=
              upsertDue db.card_due cid cn nd (env.dueChangeLookup.getD now) } := by
  unfold update_stored_due_date
  rw [hok, if_neg (by decide : ¬(true = false)),
    if_neg (by rw [hcond]; decide)]

theorem processCard_update_of_nonnull (db : DB) (now : TsStr) (c : CardIn)
    (env : CardEnv) (sd : TsStr)
    (hsd : (get_stored_due_date db c.id).1 = some sd)
    (hne : optRawNe (some sd) c.due = true) :
    processCard db now c env
      = update_stored_due_date db env now c.id c.name c.due (some sd) := by
  unfold processCard
  cases hd : c.due with
  | none => rw [hsd]
  | some cd =>
    have hraw : (cd.raw == sd.raw) = false := by
      have h2 : (sd.raw == cd.raw) = false := by
        have h3 := hne
        rw [hd] at h3
        unfold optRawNe at h3
        simpa using h3
      have h4 : sd.raw ≠ cd.raw := by simpa using h2
      simpa using Ne.symm h4
    rw [hsd]
    dsimp only
    rw [if_neg (by simp [hraw])]

theorem processCard_update_of_null (db : DB) (now : TsStr) (c : CardIn)
    (env : CardEnv) (cd : TsStr)
    (hsd : (get_stored_due_date db c.id).1 = none)
    (hcur : c.due = some cd) :
    processCard db now c env
      = update_stored_due_date db env now c.id c.name (some cd) none := by
  unfold processCard
  rw [hcur, hsd]

/-! ### Concrete timestamp representations used in counterexamples -/

/-- A UTC-marked representation of the instant 2024-06-01T10:00 UTC
(wall clock 600 minutes into the day, offset zero). -/
def repZ : TsStr := ⟨"2024-06-01T10:00:00Z", 600, some 0, true⟩

/-- An offset representation of the same instant: 12:00 at +02:00 is
also 10:00 UTC, but its naive wall clock is 720 minutes. -/
def repOff : TsStr := ⟨"2024-06-01T12:00:00+02:00", 720, some 120, true⟩

/-- A UTC-marked representation of 2024-06-01T11:00 UTC. -/
def rep11Z : TsStr := ⟨"2024-06-01T11:00:00Z", 660, some 0, true⟩

/-- C4 counterexample: the stored and observed due dates denote the
same instant through two different string representations, yet the
classifier, comparing raw strings, yields Changed — refuting the claim
that equality is decided on normalized values so that two distinct
representations of the same instant never produce Changed. -/
theorem C4_counterexample :
    TsStr.instant repOff = TsStr.instant repZ ∧
    classify (some repOff) (some repZ) = Verdict.changed := by
  constructor
  · decide
  · decide

/-- C4 (amended): the Change Classifier decides equality on the RAW
due_date strings, with no normalization: for two present due dates the
verdict is Unchanged exactly when the raw strings are equal, and
Changed exactly when they differ, even if they denote the same
instant. -/
theorem C4_raw_string_equality (cd sd : TsStr) :
    (classify (some cd) (some sd) = Verdict.unchanged ↔ cd.raw = sd.raw) ∧
    (classify (some cd) (some sd) = Verdict.changed ↔ cd.raw ≠ sd.raw) := by
  unfold classify
  by_cases h : cd.raw = sd.raw <;> simp [h]

/-- C5 counterexample: repOff denotes 600 (10:00 UTC) and rep11Z
denotes 660 (11:00 UTC), so the instants order repOff before rep11Z,
but the normalization strips the +02:00 offset without converting,
yielding 720 for repOff and 660 for rep11Z — the normalized ordering
disagrees with the instant ordering, refuting the claim for strings
carrying a non-zero UTC offset. -/
theorem C5_counterexample :
    TsStr.instant repOff = some 600 ∧ TsStr.instant rep11Z = some 660 ∧
    (600 : Int) < 660 ∧
    fromisoNaive repOff = some 720 ∧ fromisoNaive rep11Z = some 660 ∧
    (660 : Int) < 720 := by
  refine ⟨by decide, by decide, by decide, by decide, by decide, by decide⟩

/-- C5 (amended): the normalization drops the offset keeping the naive
wall clock, so it returns the denoted UTC instant — and hence ordering
comparisons agree with instant ordering — exactly for representations
with no offset marker or a zero (UTC) offset. -/
theorem C5_utc_like_normalization (t : TsStr)
    (h : t.offset = none ∨ t.offset = some 0) :
    fromisoNaive t = t.instant := by
  unfold fromisoNaive TsStr.instant
  rcases h with h | h <;> rw [h] <;> simp

/-- Witness for C5: the amended normalization equation evaluated on the
concrete UTC-marked timestamp repZ. -/
theorem C5_witness :
    (repZ.offset = none ∨ repZ.offset = some 0) ∧
    fromisoNaive repZ = repZ.instant :=
  ⟨Or.inr rfl, C5_utc_like_normalization repZ (Or.inr rfl)⟩

/-- C9 counterexample: marking reminder id 5 as read on an empty ledger
— an id that has never existed — silently succeeds (the UPDATE matches
no row and api_mark_read reports success), refuting the claim that
NotFound is signalled exactly when the id has never existed. -/
theorem C9_counterexample :
    api_mark_read ⟨[], [], 0, []⟩ 5 = (⟨[], [], 0, []⟩, true) := by
  rfl

/-- C9 (amended): mark-read is idempotent (a second call on the same id
changes nothing), it always reports success, and it is a no-op both on
an id absent from the ledger and on an already-read reminder; no
NotFound is ever signalled. -/
theorem C9_mark_read_idempotent (db : DB) (rid : Nat) :
    mark_reminder_as_read (mark_reminder_as_read db rid) rid
      = mark_reminder_as_read db rid
    ∧ (api_mark_read db rid).2 = true
    ∧ ((∀ r ∈ db.reminders, r.id ≠ rid) → mark_reminder_as_read db rid = db)
    ∧ ((∀ r ∈ db.reminders, r.id = rid → r.is_read = true) →
        mark_reminder_as_read db rid = db) := by
  refine ⟨?_, rfl, ?_, ?_⟩
  · unfold mark_reminder_as_read
    dsimp only
    congr 1
    rw [List.map_map]
    apply List.map_congr_left
    intro r _
    by_cases h : r.id == rid <;> simp [Function.comp, h]
  · intro h
    unfold mark_reminder_as_read
    have hmap : db.reminders.map (fun r =>
        if r.id == rid then { r with is_read := true } else r) = db.reminders := by
      have hc : ∀ r ∈ db.reminders, (fun r =>
          if r.id == rid then { r with is_read := true } else r) r = id r := by
        intro r hr
        have hf : (r.id == rid) = false := by simpa using h r hr
        simp [hf]
      rw [List.map_congr_left hc, List.map_id]
    rw [hmap]
  · intro h
    unfold mark_reminder_as_read
    have hmap : db.reminders.map (fun r =>
        if r.id == rid then { r with is_read := true } else r) = db.reminders := by
      have hc : ∀ r ∈ db.reminders, (fun r =>
          if r.id == rid then { r with is_read := true } else r) r = id r := by
        intro r hr
        by_cases hid : r.id == rid
        · have hread : r.is_read = true := h r hr (by simpa using hid)
          obtain ⟨i, ci, cn, o, n2, ca, ir⟩ := r
          simp only [hid, if_pos]
          simp only [id_eq]
          simp_all
        · simp [hid]
      rw [List.map_congr_left hc, List.map_id]
    rw [hmap]

/-- Witness for C9: the amended statement applied at a one-reminder
ledger and an absent id, with every hypothesis discharged concretely. -/
theorem C9_witness :
    mark_reminder_as_read (mark_reminder_as_read ⟨[], [], 0, []⟩ 5) 5
      = mark_reminder_as_read ⟨[], [], 0, []⟩ 5
    ∧ (api_mark_read ⟨[], [], 0, []⟩ 5).2 = true
    ∧ mark_reminder_as_read ⟨[], [], 0, []⟩ 5 = ⟨[], [], 0, []⟩ := by
  have h := C9_mark_read_idempotent ⟨[], [], 0, []⟩ 5
  exact ⟨h.1, h.2.1, h.2.2.1 (by intro r hr; cases hr)⟩

/-- C10: the stored-state lookup yields (None, None) for any card_id
with no row, and for any card whose stored due_date is None — whether
because the card has never been observed or because its row holds a
NULL due date — a present observed due date takes the same update path,
with the old due date passed as None (trello.py lines 562-565 with
update_stored_due_date's old_due_date=None). -/
theorem C10_unseen_equals_unset (db : DB) (env : CardEnv) (now : TsStr)
    (c : CardIn) (cd : TsStr) (cid : String)
    (habs : ∀ r ∈ db.card_due, r.card_id ≠ cid)
    (hdue : (get_stored_due_date db c.id).1 = none)
    (hcur : c.due = some cd) :
    get_stored_due_date db cid = (none, none) ∧
    processCard db now c env
      = update_stored_due_date db env now c.id c.name (some cd) none := by
  constructor
  · unfold get_stored_due_date
    have hn : db.card_due.find? (fun r => r.card_id == cid) = none := by
      rw [List.find?_eq_none]
      intro x hx
      simpa using habs x hx
    rw [hn]
  · exact processCard_update_of_null db now c env cd hdue hcur

/-- A stored row for a previously seen card whose due date is NULL:
the Unset state. -/
def w10row : DueRow := ⟨"c1", "Card One", none, some repZ⟩

/-- A one-card store in the Unset state. -/
def w10db : DB := ⟨[w10row], [], 0, []⟩

/-- The observed snapshot: the same card now carries a due date. -/
def w10card : CardIn := ⟨"c1", "Card One", some rep11Z⟩

/-- A per-card environment with both lookups failing and storage
healthy. -/
def w10env : CardEnv := ⟨none, none, true⟩

/-- Witness for C10: on the concrete Unset-state store, a lookup of an
absent card_id returns (None, None), and the Unset-to-Set observation
takes the update path with old due None — the same call an unseen card
would trigger. -/
theorem C10_witness :
    get_stored_due_date w10db "zzz" = (none, none) ∧
    processCard w10db repZ w10card w10env
      = update_stored_due_date w10db w10env repZ
          w10card.id w10card.name (some rep11Z) none := by
  exact C10_unseen_equals_unset w10db w10env repZ w10card rep11Z "zzz"
    (by decide) (by decide) rfl

/-! ### Concrete stores and cards used by C1, C2 and C6 -/

/-- The observed due date of Scenario A, a naive string with no UTC
marker. -/
def scenA : TsStr := ⟨"2024-06-01T00:00:00", 0, none, true⟩

/-- A wall-clock instant for the reconciliation cycle (the value
datetime.now().isoformat() would produce, a naive string). -/
def nowA : TsStr := ⟨"2025-01-05 12:00:00", 330000, none, true⟩

/-- The Scenario A card: never observed before, due date now set. -/
def cardA : CardIn := ⟨"a1", "Alpha", some scenA⟩

/-- Scenario A environment: change-history lookup fails, comment fetch
fails, storage healthy. -/
def envA : CardEnv := ⟨none, none, true⟩

/-- C1 counterexample: Scenario A — stored due_date null, observed
due_date 2024-06-01T00:00:00, no change-history — leaves the reminders
ledger EMPTY: update_stored_due_date is called with old_due_date=None
(trello.py line 565) and its reminder guard `old_due_date is not None`
(line 211) fails, so no ReminderEvent is appended, refuting the claim
that every confirmed transition (including Unseen to Set) produces
exactly one ReminderEvent. -/
theorem C1_counterexample :
    processCard ⟨[], [], 0, []⟩ nowA cardA envA
      = Except.ok ⟨[⟨"a1", "Alpha", some scenA, some nowA⟩], [], 0, []⟩ := by
  rfl

/-- C1 (amended): only transitions whose stored due date is non-null —
Set to Unset and Changed — produce a ReminderEvent, and they produce
exactly one: the ledger grows by a single appended row whose old_due is
the stored due date, whose new_due is the observed one and whose id is
the next AUTOINCREMENT value; transitions from a null stored due date
(Unseen to Set, Unset to Set) produce none, as the counterexample
shows on Scenario A. -/
theorem C1_one_reminder_per_nonnull_transition (db : DB) (env : CardEnv)
    (now : TsStr) (c : CardIn) (sd : TsStr)
    (hok : env.storageOk = true)
    (hsd : (get_stored_due_date db c.id).1 = some sd)
    (hne : optRawNe (some sd) c.due = true)
    (hfresh : ∀ r ∈ db.reminders, r.card_id = c.id → r.is_read = false →
      strLt r.created_at.raw now.raw = true)
    (hids : ∀ r ∈ db.reminders, r.id < db.next_reminder_id) :
    ∃ db1 r, processCard db now c env = .ok db1 ∧
      db1.reminders = db.reminders ++ [r] ∧
      r.id = db.next_reminder_id ∧
      r.card_id = c.id ∧ r.old_due = some sd ∧ r.new_due = c.due := by
  rw [processCard_update_of_nonnull db now c env sd hsd hne]
  have hcond : ((some sd : Option TsStr).isSome && optRawNe (some sd) c.due) = true := by
    simp [hne]
  rw [update_spec db env now c.id c.name c.due (some sd) hok hcond hfresh hids]
  exact ⟨_, _, rfl, rfl, rfl, rfl, rfl, rfl⟩

/-- A stored row for a card currently in the Set state. -/
def wBrow : DueRow := ⟨"b1", "Beta", some repZ, some repZ⟩

/-- A one-card store in the Set state with an empty ledger. -/
def wBdb : DB := ⟨[wBrow], [], 0, []⟩

/-- Environment with failing lookups and healthy storage. -/
def wBenvNone : CardEnv := ⟨none, none, true⟩

/-- The observed snapshot removing the card's due date. -/
def wBcardRemove : CardIn := ⟨"b1", "Beta", none⟩

/-- The observed snapshot changing the card's due date. -/
def wBcardChange : CardIn := ⟨"b1", "Beta", some rep11Z⟩

/-- Witness for C1: the amended statement applied to a concrete Set to
Unset transition, every hypothesis discharged on the concrete store —
the empty ledger grows to exactly one row recording the removal. -/
theorem C1_witness :
    (processCard wBdb nowA wBcardRemove wBenvNone).map
        (fun d => d.reminders.map (fun r => (r.id, r.card_id, r.old_due, r.new_due)))
      = .ok [(0, "b1", some repZ, (none : Option TsStr))] := by
  obtain ⟨db1, r, h1, h2, h3, h4, h5, h6⟩ :=
    C1_one_reminder_per_nonnull_transition wBdb wBenvNone nowA wBcardRemove repZ
      rfl (by decide) (by decide) (by simp [wBdb]) (by simp [wBdb])
  rw [h1]
  simp only [Except.map]
  rw [h2]
  simp [wBdb, h3, h4, h5, h6, wBcardRemove]

/-- C2 counterexample: a confirmed Unseen to Set transition with no
comment at all — the claim says the reminder must then be recorded
unread, but the code records no reminder whatsoever (the ledger stays
empty), because update_stored_due_date is invoked with
old_due_date=None and never reaches send_reminder. -/
theorem C2_counterexample :
    processCard ⟨[], [], 0, []⟩ nowA ⟨"d1", "Delta", some rep11Z⟩ envA
      = Except.ok ⟨[⟨"d1", "Delta", some rep11Z, some nowA⟩], [], 0, []⟩ := by
  rfl

/-- C2 (amended): for every transition that records a reminder — those
with a non-null stored due date — the recorded row's is_read equals the
suppression decision specSuppressed applied to the freshly recorded
due_changed_at (the change-history instant, or the wall clock when the
lookup fails) and the most recent fetched comment timestamp: strictly
greater after normalization gives a row already marked read, while no
comment, an exactly-equal timestamp, or a parse failure gives an
unread row. -/
theorem C2_suppression_rule (db : DB) (env : CardEnv)
    (now : TsStr) (c : CardIn) (sd : TsStr)
    (hok : env.storageOk = true)
    (hsd : (get_stored_due_date db c.id).1 = some sd)
    (hne : optRawNe (some sd) c.due = true)
    (hfresh : ∀ r ∈ db.reminders, r.card_id = c.id → r.is_read = false →
      strLt r.created_at.raw now.raw = true)
    (hids : ∀ r ∈ db.reminders, r.id < db.next_reminder_id) :
    ∃ db1 r, processCard db now c env = .ok db1 ∧
      db1.reminders = db.reminders ++ [r] ∧
      r.is_read = specSuppressed (env.dueChangeLookup.getD now) (latestFetched env) := by
  rw [processCard_update_of_nonnull db now c env sd hsd hne]
  have hcond : ((some sd : Option TsStr).isSome && optRawNe (some sd) c.due) = true := by
    simp [hne]
  rw [update_spec db env now c.id c.name c.due (some sd) hok hcond hfresh hids]
  exact ⟨_, _, rfl, rfl, rfl⟩

/-- A comment posted at 10:30 UTC, after the 10:00 UTC due change. -/
def cmt630 : TsStr := ⟨"2024-06-01T10:30:00Z", 630, some 0, true⟩

/-- Environment whose change-history lookup resolves to the 10:00 UTC
instant and whose comment fetch returns one comment from 10:30 UTC. -/
def wBenvCmt : CardEnv := ⟨some repZ, some [⟨"cm1", "looks good", cmt630⟩], true⟩

/-- Witness for C2: the amended statement applied to a concrete Changed
transition whose latest comment (10:30 UTC) postdates the resolved
change instant (10:00 UTC): the single recorded reminder carries
is_read equal to the suppression decision, which evaluates to true. -/
theorem C2_witness :
    (processCard wBdb nowA wBcardChange wBenvCmt).map
        (fun d => d.reminders.map (fun r => r.is_read))
      = .ok [specSuppressed (wBenvCmt.dueChangeLookup.getD nowA)
              (latestFetched wBenvCmt)] ∧
    specSuppressed (wBenvCmt.dueChangeLookup.getD nowA)
      (latestFetched wBenvCmt) = true := by
  obtain ⟨db1, r, h1, h2, h3⟩ :=
    C2_suppression_rule wBdb wBenvCmt nowA wBcardChange repZ
      rfl (by decide) (by decide) (by simp [wBdb]) (by simp [wBdb])
  constructor
  · rw [h1]
    simp only [Except.map]
    rw [h2]
    simp [wBdb, h3]
  · decide

/-- C6 counterexample: an Unset to Set transition (card previously
seen, stored due date NULL) whose change-history lookup fails: the
wall-clock fallback nowA is recorded as due_date_updated_at, yet NO
ReminderEvent is created — refuting the claim that a ReminderEvent is
still created for every confirmed transition when the lookup fails. -/
theorem C6_counterexample :
    processCard w10db nowA ⟨"c1", "Card One", some rep11Z⟩ w10env
      = Except.ok ⟨[⟨"c1", "Card One", some rep11Z, some nowA⟩], [], 0, []⟩ := by
  rfl

/-- C6 (amended): when the change-history lookup fails, the recorded
due_date_updated_at falls back to the cycle's wall-clock time; for
transitions with a non-null stored due date (Set to Unset, Changed) a
ReminderEvent is still created and, when the comment fetch fails or
returns no comments, it is recorded unread; for transitions from a
null stored due date the fallback instant is still recorded but no
ReminderEvent is created (see the counterexample). -/
theorem C6_wallclock_fallback (db : DB) (env : CardEnv)
    (now : TsStr) (c : CardIn) (sd : TsStr)
    (hok : env.storageOk = true)
    (hlk : env.dueChangeLookup = none)
    (hcm : env.commentsFetch = none ∨ env.commentsFetch = some [])
    (hsd : (get_stored_due_date db c.id).1 = some sd)
    (hne : optRawNe (some sd) c.due = true)
    (hfresh : ∀ r ∈ db.reminders, r.card_id = c.id → r.is_read = false →
      strLt r.created_at.raw now.raw = true)
    (hids : ∀ r ∈ db.reminders, r.id < db.next_reminder_id) :
    ∃ db1, processCard db now c env = .ok db1 ∧
      (get_stored_due_date db1 c.id).2 = some now ∧
      db1.reminders = db.reminders ++
        [⟨db.next_reminder_id, c.id, c.name, some sd, c.due, now, false⟩] := by
  have hlat : latestFetched env = none := by
    rcases hcm with h | h <;> simp [latestFetched, h]
  rw [processCard_update_of_nonnull db now c env sd hsd hne]
  have hcond : ((some sd : Option TsStr).isSome && optRawNe (some sd) c.due) = true := by
    simp [hne]
  rw [update_spec db env now c.id c.name c.due (some sd) hok hcond hfresh hids]
  refine ⟨_, rfl, ?_, ?_⟩
  · rw [hlk]
    simp only [get_stored_due_date, Option.getD, find_upsertDue]
  · rw [hlk, hlat]
    rfl

/-- Witness for C6: the amended statement applied to a concrete Changed
transition with failing change-history lookup and failing comment
fetch: the wall-clock instant nowA is recorded as the change time and
the single appended reminder is unread. -/
theorem C6_witness :
    (processCard wBdb nowA wBcardChange wBenvNone).map
        (fun d => ((get_stored_due_date d wBcardChange.id).2, d.reminders))
      = .ok (some nowA,
          [⟨wBdb.next_reminder_id, wBcardChange.id, wBcardChange.name,
            some repZ, wBcardChange.due, nowA, false⟩]) := by
  obtain ⟨db1, h1, h2, h3⟩ :=
    C6_wallclock_fallback wBdb wBenvNone nowA wBcardChange repZ
      rfl rfl (Or.inl rfl) (by decide) (by decide)
      (by simp [wBdb]) (by simp [wBdb])
  rw [h1]
  simp only [Except.map]
  rw [h2, h3]
  simp [wBdb]

/-- A stored row in the both-absent state (due date NULL) under an old
name. -/
def w8row : DueRow := ⟨"e1", "Old Name", none, some repZ⟩

/-- A one-card store whose card has no due date. -/
def w8db : DB := ⟨[w8row], [], 0, []⟩

/-- C8 counterexample: an Unchanged observation with BOTH due dates
absent and a changed card name takes check_cards' `pass` branch
(trello.py lines 555-557): the store is returned untouched, so the
stored name stays Old Name instead of being refreshed to the observed
name — refuting the claim that the name is refreshed on every
Unchanged observation including the both-absent case. -/
theorem C8_counterexample :
    processCard w8db nowA ⟨"e1", "New Name", none⟩ envA = Except.ok w8db ∧
    w8db.card_due.map (fun r => r.name) = ["Old Name"] := by
  exact ⟨rfl, rfl⟩

theorem get_stored_nameRefresh_fst (db : DB) (cid n cid2 : String) :
    (get_stored_due_date (nameRefresh db cid n) cid2).1
      = (get_stored_due_date db cid2).1 := by
  unfold get_stored_due_date nameRefresh
  dsimp only
  rw [List.find?_map]
  have hp : ((fun r => r.card_id == cid2) ∘ (fun r : DueRow =>
      if r.card_id == cid then { r with name := n } else r))
      = fun r => r.card_id == cid2 := by
    funext r
    by_cases h : r.card_id == cid <;> simp [Function.comp, h]
  rw [hp]
  cases hf : db.card_due.find? (fun r => r.card_id == cid2) with
  | none => rfl
  | some row =>
    dsimp only [Option.map]
    by_cases h : row.card_id == cid <;> simp [h]

theorem nameRefresh_idem (db : DB) (cid n : String) :
    nameRefresh (nameRefresh db cid n) cid n = nameRefresh db cid n := by
  unfold nameRefresh
  dsimp only
  congr 1
  rw [List.map_map]
  apply List.map_congr_left
  intro r _
  by_cases h : r.card_id == cid <;> simp [Function.comp, h]

/-- C8 (amended): an Unchanged observation (observed due equal to the
stored due under the raw-string comparison, including both absent)
never creates a ReminderEvent, never touches due_date_updated_at,
due_date, comments or the reminder counter, and is idempotent under
replay; the stored card name, however, is refreshed only in the
both-present case — when both due dates are absent the code takes the
`pass` branch and changes nothing at all (see the counterexample). -/
theorem C8_unchanged_frame (db : DB) (env : CardEnv) (now : TsStr) (c : CardIn)
    (hok : env.storageOk = true)
    (heq : optRawNe c.due (get_stored_due_date db c.id).1 = false) :
    ∃ db1, processCard db now c env = .ok db1 ∧
      db1 = (match c.due with
             | some _ => nameRefresh db c.id c.name
             | none => db) ∧
      db1.reminders = db.reminders ∧
      db1.card_comments = db.card_comments ∧
      db1.next_reminder_id = db.next_reminder_id ∧
      db1.card_due.map (fun r => (r.card_id, r.due_date, r.due_date_updated_at))
        = db.card_due.map (fun r => (r.card_id, r.due_date, r.due_date_updated_at)) ∧
      processCard db1 now c env = .ok db1 := by
  cases hc : c.due with
  | none =>
    have hst : (get_stored_due_date db c.id).1 = none := by
      cases hs : (get_stored_due_date db c.id).1 with
      | none => rfl
      | some sd =>
        rw [hc, hs] at heq
        exact absurd heq (by simp [optRawNe])
    refine ⟨db, ?_, rfl, rfl, rfl, rfl, rfl, ?_⟩
    · unfold processCard
      rw [hc, hst]
    · unfold processCard
      rw [hc, hst]
  | some cd =>
    obtain ⟨sd, hs⟩ : ∃ sd, (get_stored_due_date db c.id).1 = some sd := by
      cases hs : (get_stored_due_date db c.id).1 with
      | none =>
        rw [hc, hs] at heq
        exact absurd heq (by simp [optRawNe])
      | some sd => exact ⟨sd, rfl⟩
    have hraw : (cd.raw == sd.raw) = true := by
      rw [hc, hs] at heq
      unfold optRawNe at heq
      simpa using heq
    refine ⟨nameRefresh db c.id c.name, ?_, rfl, rfl, rfl, rfl, ?_, ?_⟩
    · unfold processCard
      rw [hc, hs]
      dsimp only
      rw [if_pos hraw, if_pos hok]
    · unfold nameRefresh
      dsimp only
      rw [List.map_map]
      apply List.map_congr_left
      intro r _
      by_cases h : r.card_id == c.id <;> simp [Function.comp, h]
    · unfold processCard
      rw [hc, get_stored_nameRefresh_fst db c.id c.name c.id, hs]
      dsimp only
      rw [if_pos hraw, if_pos hok, nameRefresh_idem]

/-- Witness for C8: the amended statement applied to a concrete
both-present Unchanged observation carrying a new card name: the result
is exactly the name-refreshed store, the ledger is untouched, and
replaying the observation is a fixed point. -/
theorem C8_witness :
    processCard wBdb nowA ⟨"b1", "Beta Renamed", some repZ⟩ envA
      = .ok (nameRefresh wBdb "b1" "Beta Renamed") ∧
    (nameRefresh wBdb "b1" "Beta Renamed").reminders = wBdb.reminders ∧
    processCard (nameRefresh wBdb "b1" "Beta Renamed") nowA
        ⟨"b1", "Beta Renamed", some repZ⟩ envA
      = .ok (nameRefresh wBdb "b1" "Beta Renamed") := by
  obtain ⟨db1, h1, hdb, h2, h3, h4, h5, h6⟩ :=
    C8_unchanged_frame wBdb envA nowA ⟨"b1", "Beta Renamed", some repZ⟩ rfl (by decide)
  have hdb2 : db1 = nameRefresh wBdb "b1" "Beta Renamed" := hdb
  rw [hdb2] at h1 h2 h6
  exact ⟨h1, h2, h6⟩

theorem update_ok (db : DB) (env : CardEnv) (now : TsStr) (cid cn : String)
    (nd od : Option TsStr) (hok : env.storageOk = true) :
    ∃ db1, update_stored_due_date db env now cid cn nd od = .ok db1 := by
  unfold update_stored_due_date
  rw [hok, if_neg (by decide : ¬(true = false))]
  dsimp only
  by_cases hc : (od.isSome && optRawNe od nd) = true
  · rw [if_pos hc]
    exact ⟨_, rfl⟩
  · rw [if_neg hc]
    exact ⟨_, rfl⟩

theorem processCard_ok_of_storage (db : DB) (now : TsStr) (c : CardIn)
    (env : CardEnv) (hok : env.storageOk = true) :
    ∃ db1, processCard db now c env = .ok db1 := by
  unfold processCard
  cases c.due with
  | none =>
    cases (get_stored_due_date db c.id).1 with
    | none => exact ⟨db, rfl⟩
    | some sd => exact update_ok db env now c.id c.name none (some sd) hok
  | some cd =>
    cases (get_stored_due_date db c.id).1 with
    | none => exact update_ok db env now c.id c.name (some cd) none hok
    | some sd =>
      dsimp only
      by_cases h : (cd.raw == sd.raw) = true
      · rw [if_pos h, if_pos hok]
        exact ⟨_, rfl⟩
      · rw [if_neg h]
        exact update_ok db env now c.id c.name (some cd) (some sd) hok

/-- An environment whose storage operations fail. -/
def c7envBad : CardEnv := ⟨none, none, false⟩

/-- A fresh card that would gain a card_due row when processed. -/
def c7cardGood : CardIn := ⟨"f1", "Fresh", some rep11Z⟩

/-- C7 counterexample: the first card's update hits a storage fault
while it is undergoing a Set to Unset transition; check_cards has no
per-card exception handler, so the loop aborts (completion flag false)
with the store untouched — in particular the second, healthy card f1 is
never classified and gains no row, refuting the claim that a
storage-layer failure on one card does not abort processing of the
remaining cards. -/
theorem C7_counterexample :
    check_cards wBdb nowA
        [(⟨"b1", "Beta", none⟩, c7envBad), (c7cardGood, envA)]
      = (wBdb, false) ∧
    get_stored_due_date wBdb "f1" = (none, none) := by
  exact ⟨rfl, by decide⟩

/-- C7 (amended): timestamp parse failures and failed comment or
change-history lookups are absorbed inside the per-card processing
(the code catches those exceptions and substitutes None or False), so
whenever every card's storage operations succeed the reconciliation
loop runs to completion over the whole snapshot, whatever the lookup
results or timestamp contents; a storage-layer failure, by contrast,
aborts the remaining cards of the cycle (see the counterexample). -/
theorem C7_fault_isolation (db : DB) (now : TsStr)
    (cards : List (CardIn × CardEnv))
    (h : ∀ p ∈ cards, p.2.storageOk = true) :
    (check_cards db now cards).2 = true := by
  induction cards generalizing db with
  | nil => rfl
  | cons p rest ih =>
    obtain ⟨c, env⟩ := p
    obtain ⟨db1, h1⟩ := processCard_ok_of_storage db now c env
      (h (c, env) (List.mem_cons_self _ _))
    unfold check_cards
    rw [h1]
    exact ih db1 (fun q hq => h q (List.mem_cons_of_mem _ hq))

/-- An unparsable timestamp (datetime.fromisoformat raises on it). -/
def tsBad : TsStr := ⟨"not-a-date", 0, none, false⟩

/-- Witness for C7: a two-card cycle in which the first card's
change-history lookup fails outright and the second card's lookup and
latest comment are unparsable, with storage healthy everywhere: the
loop still completes. -/
theorem C7_witness :
    (check_cards ⟨[], [], 0, []⟩ nowA
      [(cardA, ⟨none, none, true⟩),
       (wBcardChange, ⟨some tsBad, some [⟨"cmX", "hmm", tsBad⟩], true⟩)]).2
      = true :=
  C7_fault_isolation ⟨[], [], 0, []⟩ nowA
    [(cardA, ⟨none, none, true⟩),
     (wBcardChange, ⟨some tsBad, some [⟨"cmX", "hmm", tsBad⟩], true⟩)]
    (by decide)

theorem find_filter_of_imp {α : Type} (p q : α → Bool) (l : List α)
    (h : ∀ x, p x = true → q x = true) :
    (l.filter q).find? p = l.find? p := by
  induction l with
  | nil => rfl
  | cons x xs ih =>
    by_cases hq : q x = true
    · rw [List.filter_cons_of_pos hq]
      by_cases hp : p x = true
      · rw [List.find?_cons_of_pos _ hp, List.find?_cons_of_pos _ hp]
      · rw [List.find?_cons_of_neg _ hp, List.find?_cons_of_neg _ hp]
        exact ih
    · have hp : ¬ p x = true := fun hpx => hq (h x hpx)
      rw [List.filter_cons_of_neg hq, ih, List.find?_cons_of_neg _ hp]

theorem foldl_upsert_other (cid : String) (due_dt : Option Int) (k : String) :
    ∀ (cs : List CommentIn) (acc : List CommentRow),
      (∀ c2 ∈ cs, c2.comment_id ≠ k) →
      (cs.foldl (fun acc c => upsertComment acc (ingestRow due_dt cid c)) acc).find?
          (fun r => r.comment_id == k)
        = acc.find? (fun r => r.comment_id == k) := by
  intro cs
  induction cs with
  | nil => intro acc _; rfl
  | cons c cs ih =>
    intro acc h
    rw [List.foldl_cons, ih _ (fun c2 hc2 => h c2 (List.mem_cons_of_mem _ hc2))]
    have hck : c.comment_id ≠ k := h c (List.mem_cons_self _ _)
    unfold upsertComment
    rw [List.find?_append]
    have h1 : (acc.filter (fun r =>
        !(r.comment_id == (ingestRow due_dt cid c).comment_id))).find?
          (fun r => r.comment_id == k)
        = acc.find? (fun r => r.comment_id == k) := by
      apply find_filter_of_imp
      intro x hx
      have hxk : x.comment_id = k := by simpa using hx
      simp [ingestRow, hxk]
      exact fun he => hck he.symm
    have h2 : List.find? (fun r => r.comment_id == k)
        [ingestRow due_dt cid c] = none := by
      simp [ingestRow, hck]
    rw [h1, h2, Option.or_none]

theorem foldl_upsert_mem (cid : String) (due_dt : Option Int) (cm : CommentIn) :
    ∀ (cs : List CommentIn) (acc : List CommentRow),
      cm ∈ cs →
      (∀ c2 ∈ cs, c2.comment_id = cm.comment_id → c2 = cm) →
      (cs.foldl (fun acc c => upsertComment acc (ingestRow due_dt cid c)) acc).find?
          (fun r => r.comment_id == cm.comment_id)
        = some (ingestRow due_dt cid cm) := by
  intro cs
  induction cs with
  | nil => intro acc h; cases h
  | cons c cs ih =>
    intro acc hmem huniq
    rw [List.foldl_cons]
    by_cases hcs : cm ∈ cs
    · exact ih _ hcs (fun c2 h2 he => huniq c2 (List.mem_cons_of_mem _ h2) he)
    · have hc : c = cm := by
        rcases List.mem_cons.mp hmem with h | h
        · exact h.symm
        · exact absurd h hcs
      subst hc
      have hnone : ∀ c2 ∈ cs, c2.comment_id ≠ c.comment_id := by
        intro c2 h2 he
        exact hcs (by
          rwa [huniq c2 (List.mem_cons_of_mem _ h2) he] at h2)
      rw [foldl_upsert_other cid due_dt c.comment_id cs _ hnone]
      unfold upsertComment
      rw [List.find?_append]
      have h1 : (acc.filter (fun r =>
          !(r.comment_id == (ingestRow due_dt cid c).comment_id))).find?
            (fun r => r.comment_id == c.comment_id) = none := by
        rw [List.find?_eq_none]
        intro x hx
        have hq := (List.mem_filter.mp hx).2
        simp only [ingestRow, Bool.not_eq_eq_eq_not, Bool.not_true] at hq
        simp [hq]
      rw [h1]
      simp [ingestRow]

/-- A later due-change instant, 2024-06-02T00:00 UTC (wall 1440). -/
def t1440 : TsStr := ⟨"2024-06-02T00:00:00Z", 1440, some 0, true⟩

/-- Card g1 whose due date last changed at t1440. -/
def c3row : DueRow := ⟨"g1", "Gamma", some rep11Z, some t1440⟩

/-- The comment as stored during an earlier epoch, when the due change
instant was 10:00 UTC: posted at 10:30 UTC, it was flagged
suppressed_notification = true. -/
def c3cmtOld : CommentRow := ⟨"cm1", "g1", "looks good", cmt630, true⟩

/-- Store holding the old comment flag and the NEW due-change instant. -/
def c3db : DB := ⟨[c3row], [], 0, [c3cmtOld]⟩

/-- Environment re-fetching the very same comment. -/
def c3env : CardEnv := ⟨none, some [⟨"cm1", "looks good", cmt630⟩], true⟩

/-- C3 counterexample: the comment cm1 is stored with
suppressed_notification = true from an earlier due-date epoch; after
due_changed_at moved to t1440 a reconciliation cycle re-fetches the
same comment, and get_card_comments' INSERT OR REPLACE overwrites the
row with a flag recomputed against the CURRENT due_changed_at
(630 > 1440 is false), flipping true to false — refuting the claim
that the flag is computed once at ingestion and never recomputed or
overwritten when due_changed_at later changes. -/
theorem C3_counterexample :
    c3cmtOld.suppressed_notification = true ∧
    (get_card_comments c3db c3env "g1").2.card_comments
      = [⟨"cm1", "g1", "looks good", cmt630, false⟩] := by
  exact ⟨rfl, rfl⟩

/-- C3 (amended): suppressed_notification is recomputed at every
successful ingestion: each fetched comment is re-upserted with the flag
freshly computed from the card's CURRENT due_date_updated_at,
overwriting the stored value; a stored comment keeps its flag only
while it is absent from the fetched batch. -/
theorem C3_flag_recomputed_each_cycle (db : DB) (env : CardEnv) (cid : String)
    (cs : List CommentIn) (cm : CommentIn) (k : String)
    (hfetch : env.commentsFetch = some cs)
    (hmem : cm ∈ cs)
    (huniq : ∀ c2 ∈ cs, c2.comment_id = cm.comment_id → c2 = cm)
    (habs : ∀ c2 ∈ cs, c2.comment_id ≠ k) :
    ((get_card_comments db env cid).2).card_comments.find?
        (fun r => r.comment_id == cm.comment_id)
      = some (ingestRow (dueDtOf db cid) cid cm)
    ∧ ((get_card_comments db env cid).2).card_comments.find?
        (fun r => r.comment_id == k)
      = db.card_comments.find? (fun r => r.comment_id == k) := by
  unfold get_card_comments
  rw [hfetch]
  have hne : cs.isEmpty = false := by
    cases cs
    · cases hmem
    · rfl
  dsimp only
  rw [hne, if_neg (by decide : ¬(false = true))]
  dsimp only
  constructor
  · exact foldl_upsert_mem cid (dueDtOf db cid) cm cs db.card_comments hmem huniq
  · exact foldl_upsert_other cid (dueDtOf db cid) k cs db.card_comments habs

/-- Witness for C3: the amended statement applied to the concrete
re-fetch of comment cm1 after the due-change instant moved, with the
untouched id check on an absent comment id. -/
theorem C3_witness :
    ((get_card_comments c3db c3env "g1").2).card_comments.find?
        (fun r => r.comment_id == "cm1")
      = some (ingestRow (dueDtOf c3db "g1") "g1" ⟨"cm1", "looks good", cmt630⟩)
    ∧ ((get_card_comments c3db c3env "g1").2).card_comments.find?
        (fun r => r.comment_id == "zz")
      = c3db.card_comments.find? (fun r => r.comment_id == "zz") :=
  C3_flag_recomputed_each_cycle c3db c3env "g1"
    [⟨"cm1", "looks good", cmt630⟩] ⟨"cm1", "looks good", cmt630⟩ "zz"
    rfl (by decide) (by decide) (by decide)

/-- Witness for C4: the amended raw-string criterion evaluated at a
concrete pair — identical raw strings give the Unchanged verdict. -/
theorem C4_witness :
    classify (some repZ) (some repZ) = Verdict.unchanged :=
  (C4_raw_string_equality repZ repZ).1.mpr rfl
